import Mathlib

/-!
# Verification of the rs6502 toolkit against its specification

Shallow embedding of the rs6502 sources (a 6502 assembler, disassembler and
emulator written in Rust).  Machine integers are modelled as `Nat`/`Int` with
explicit `% 2^w` where the source wraps; fallible Rust code returns
`Except`/`Option`, and a Rust `panic` (e.g. `Result::unwrap` on an `Err`, or a
slice read past the end of memory) is modelled as `Option.none` or as an
explicit `panicked` error constructor, distinct from the error values the
source returns to its caller.
-/

namespace Rs6502

/-- Reinterpret an unsigned 16-bit value as Rust `as i16` does. -/
def i16ofU16 (x : Nat) : Int :=
  if x < 0x8000 then (x : Int) else (x : Int) - 0x10000

/-- Truncate an integer to a signed 8-bit value as Rust `as i8` does. -/
def i8ofInt (d : Int) : Int :=
  let m := d % 256
  if m < 128 then m else m - 256

/-- Reinterpret an integer as an unsigned byte as Rust `as u8` does. -/
def u8ofInt (d : Int) : Nat :=
  (d % 256).toNat

/-- The 64 KiB memory bus (`cpu/memory_bus.rs`): `ram: [u8; 1024 * 64]`, read as a
total function from addresses to byte values. -/
def Mem : Type := Nat → Nat

/-- Embeds `MemoryBus::write_byte`. -/
def writeByte (m : Mem) (addr val : Nat) : Mem :=
  fun a => if a = addr then val else m a

/-- Embeds `MemoryBus::read_u16`: `LittleEndian::read_u16(&self.ram[addr..])`.
The slice `ram[addr..]` has fewer than two bytes when `addr = 0xFFFF`, in
which case `byteorder` panics — modelled as `none`. -/
def readU16 (m : Mem) (addr : Nat) : Option Nat :=
  if addr + 1 ≤ 0xFFFF then some (m addr + 256 * m (addr + 1)) else none

/-- Checked `u16` addition: Rust `a + b` on `u16` aborts on overflow
(debug profile), modelled as `none`. -/
def u16add (a b : Nat) : Option Nat :=
  if a + b ≤ 0xFFFF then some (a + b) else none

/-- Embeds `cpu/flags.rs`: the packed P register, `C|Z|I|D|B|_|V|N` at bits 0..7. -/
structure StatusFlags where
  carry : Bool
  zero : Bool
  interrupt_disabled : Bool
  decimal : Bool
  breakpoint : Bool
  unused : Bool
  overflow : Bool
  sign : Bool
deriving DecidableEq

/-- Embeds `StatusFlags::to_u8` — note the `unused` flag contributes no bit. -/
def StatusFlags.toU8 (f : StatusFlags) : Nat :=
  (if f.carry then 0x01 else 0) + (if f.zero then 0x02 else 0) +
  (if f.interrupt_disabled then 0x04 else 0) + (if f.decimal then 0x08 else 0) +
  (if f.breakpoint then 0x10 else 0) + (if f.overflow then 0x40 else 0) +
  (if f.sign then 0x80 else 0)

/-- Embeds `impl From<u8> for StatusFlags` — `unused` is always set to `false`. -/
def StatusFlags.fromU8 (byte : Nat) : StatusFlags where
  carry := byte &&& 0x01 == 0x01
  zero := byte &&& 0x02 == 0x02
  interrupt_disabled := byte &&& 0x04 == 0x04
  decimal := byte &&& 0x08 == 0x08
  breakpoint := byte &&& 0x10 == 0x10
  unused := false
  overflow := byte &&& 0x40 == 0x40
  sign := byte &&& 0x80 == 0x80

/-- Embeds `StatusFlags::default()`. -/
def StatusFlags.default : StatusFlags :=
  ⟨false, false, true, false, false, false, false, false⟩

/-- Embeds `cpu/registers.rs`. -/
structure Registers where
  A : Nat
  X : Nat
  Y : Nat
  PC : Nat
deriving DecidableEq

/-- Embeds `Registers::new()`. -/
def Registers.new : Registers := ⟨0, 0, 0, 0⟩

/-- Embeds `cpu/stack.rs` `StackError` — a human-readable message. -/
structure StackError where
  message : String
deriving DecidableEq

def StackError.overflowed : StackError :=
  ⟨"Stack overflow occurred"⟩

def StackError.underflowed : StackError :=
  ⟨"Stack underflow; unable to pop from empty stack"⟩

/-- Embeds `Stack` operations.  The Rust struct holds only `pointer : usize`; each
operation receives the stack page `memory[0x100..0x200)` as a slice, so
`stack_area[i]` is `mem (0x100 + i)` here.  Each returns the new pointer and
memory on success. -/
def stackPush (p : Nat) (m : Mem) (val : Nat) : Except StackError (Nat × Mem) :=
  if 0 < p then .ok (p - 1, writeByte m (0x100 + (p - 1)) val)
  else .error StackError.overflowed

/-- Embeds `Stack::push_u16`: writes `val` little-endian at `stack_area[pointer-2..]`
then decrements the pointer by 2. -/
def stackPushU16 (p : Nat) (m : Mem) (val : Nat) : Except StackError (Nat × Mem) :=
  if 1 < p then
    .ok (p - 2, writeByte (writeByte m (0x100 + (p - 2)) (val % 256))
                          (0x100 + (p - 1)) (val / 256 % 256))
  else .error StackError.overflowed

/-- Embeds `Stack::pop`. -/
def stackPop (p : Nat) (m : Mem) : Except StackError (Nat × Nat) :=
  if p = 0xFF then .error StackError.underflowed
  else .ok (m (0x100 + p), p + 1)

/-- Embeds `Stack::pop_u16`. -/
def stackPopU16 (p : Nat) (m : Mem) : Except StackError (Nat × Nat) :=
  if p < 0xFE then .ok (m (0x100 + p) + 256 * m (0x100 + p + 1), p + 2)
  else .error StackError.underflowed

/-- Embeds `cpu/cpu_error.rs`: the only error kinds `Cpu` methods can return.
There is no stack overflow/underflow variant. -/
inductive CpuError where
  | codeSegmentOutOfRange (addr : Nat)
  | unknownOpcode (addr code : Nat)
deriving DecidableEq

/-- Embeds `cpu/cpu.rs` `Cpu`.  `sp` is `stack.pointer`. -/
structure Cpu where
  mem : Mem
  reg : Registers
  flags : StatusFlags
  sp : Nat
  code_start : Nat
  code_size : Nat

/-- Embeds `Cpu::new()` — memory zeroed, `code_start = 0xC000`. -/
def Cpu.new : Cpu :=
  ⟨fun _ => 0, Registers.new, StatusFlags.default, 0xFF, 0xC000, 0⟩

/-- Embeds `cpu/cpu.rs` `Operand`. -/
inductive Operand where
  | immediate (byte : Nat)
  | memory (addr : Nat)
  | implied
deriving DecidableEq

/-- Embeds `Cpu::unwrap_immediate`. -/
def Cpu.unwrapImmediate (c : Cpu) (op : Operand) : Nat :=
  match op with
  | .immediate byte => byte
  | .memory addr => c.mem addr
  | .implied => 0

/-- Embeds `Cpu::unwrap_address`. -/
def Cpu.unwrapAddress (c : Cpu) (op : Operand) : Nat :=
  match op with
  | .immediate byte => byte
  | .memory addr => addr
  | .implied => 0

/-- Embeds `self.stack.push_u16(mem, val);` with the returned `Result` discarded, as
`Cpu::brk`/`Cpu::jsr`/`Cpu::pha`/`Cpu::php` do: on overflow the push mutates
nothing and execution continues. -/
def Cpu.pushU16Discard (c : Cpu) (val : Nat) : Cpu :=
  match stackPushU16 c.sp c.mem val with
  | .ok (p, m) => { c with sp := p, mem := m }
  | .error _ => c

/-- Embeds `self.stack.push(mem, val);` with the returned `Result` discarded. -/
def Cpu.pushDiscard (c : Cpu) (val : Nat) : Cpu :=
  match stackPush c.sp c.mem val with
  | .ok (p, m) => { c with sp := p, mem := m }
  | .error _ => c

/-- Embeds `Cpu::brk`: pushes the (already advanced) PC, then the P byte exactly as
`flags.to_u8()` produces it — the B bit is whatever `flags.breakpoint`
currently is, it is not forced to 1 — then sets the interrupt-disable flag. -/
def Cpu.brk (c : Cpu) : Cpu :=
  let c1 := c.pushU16Discard c.reg.PC
  let c2 := c1.pushDiscard c1.flags.toU8
  { c2 with flags := { c2.flags with interrupt_disabled := true } }

/-- Embeds `Cpu::rti`: pops a single byte into P via `self.stack.pop(mem).unwrap()`
— the `unwrap` aborts on underflow (`none`).  No PC pop is performed. -/
def Cpu.rti (c : Cpu) : Option Cpu :=
  match stackPop c.sp c.mem with
  | .ok (v, p) => some { c with sp := p, flags := StatusFlags.fromU8 v }
  | .error _ => none

/-- Embeds `Cpu::rts`: `self.stack.pop_u16(mem).unwrap()` into PC. -/
def Cpu.rts (c : Cpu) : Option Cpu :=
  match stackPopU16 c.sp c.mem with
  | .ok (v, p) => some { c with sp := p, reg := { c.reg with PC := v } }
  | .error _ => none

/-- Embeds `Cpu::pla`: `self.stack.pop(mem).unwrap()` into A (no flag updates). -/
def Cpu.pla (c : Cpu) : Option Cpu :=
  match stackPop c.sp c.mem with
  | .ok (v, p) => some { c with sp := p, reg := { c.reg with A := v } }
  | .error _ => none

/-- Embeds `Cpu::plp`: `self.stack.pop(mem).unwrap()` into P. -/
def Cpu.plp (c : Cpu) : Option Cpu :=
  match stackPop c.sp c.mem with
  | .ok (v, p) => some { c with sp := p, flags := StatusFlags.fromU8 v }
  | .error _ => none

/-- The `result` value computed by `Cpu::adc`: binary sum of A, the operand
byte and the carry-in, then the packed-BCD corrections when the decimal flag
is set (`+0x06` on nibble overflow, `+0x60` when the corrected result exceeds
`0x99`). -/
def Cpu.adcResult (c : Cpu) (op : Operand) : Nat :=
  let carry := if c.flags.carry then 1 else 0
  let value := c.unwrapImmediate op
  let r0 := c.reg.A + value + carry
  let r1 := if c.flags.decimal ∧ (c.reg.A &&& 0x0F) + (value &&& 0x0F) + carry > 0x09
            then r0 + 0x06 else r0
  if c.flags.decimal ∧ r1 > 0x99 then r1 + 0x60 else r1

/-- Embeds `Cpu::adc`.  `value_signs` is true only when A and the operand both have
bit 7 set; the overflow flag is set to `true` when the result's sign bit
differs from `value_signs` and is otherwise left unchanged. -/
def Cpu.adc (c : Cpu) (op : Operand) : Cpu :=
  let value := c.unwrapImmediate op
  let valueSigns := c.reg.A &&& 0x80 == 0x80 && value &&& 0x80 == 0x80
  let result := c.adcResult op
  let carryF := result &&& 0x100 == 0x100
  let zeroF := result % 256 == 0
  let signF := result &&& 0x80 == 0x80
  let overflowF := if signF ≠ valueSigns then true else c.flags.overflow
  { c with
    flags := { c.flags with carry := carryF, zero := zeroF, sign := signF,
                            overflow := overflowF },
    reg := { c.reg with A := result % 256 } }

/-- Embeds `Cpu::lda`. -/
def Cpu.lda (c : Cpu) (op : Operand) : Cpu :=
  let value := c.unwrapImmediate op
  { c with
    reg := { c.reg with A := value },
    flags := { c.flags with sign := value &&& 0x80 == 0x80, zero := value == 0 } }

/-- Write a byte list into memory starting at `addr`, as `Cpu::load`'s copy
loop does (`self.memory.write_byte(addr + x as u16, code[x])`; the `u16`
address addition wraps in release builds, hence the `% 0x10000`). -/
def writeBytesAt (m : Mem) (addr : Nat) : List Nat → Mem
  | [] => m
  | b :: rest => writeBytesAt (writeByte m (addr % 0x10000) b) (addr + 1) rest

/-- Embeds `Cpu::load`: with an explicit address the load is rejected when
`addr + code.len() > 0xFFFF` (`u16::max_value()`); otherwise — and always for
the default address `0xC000` — the bytes are copied, PC is set to the start
address, and `code_start`/`code_size` are updated. -/
def Cpu.load (c : Cpu) (code : List Nat) (addr : Option Nat) : Except CpuError Cpu :=
  match addr with
  | some a =>
    if a + code.length > 0xFFFF then .error (CpuError.codeSegmentOutOfRange a)
    else .ok { c with
      mem := writeBytesAt c.mem a code,
      reg := { c.reg with PC := a },
      code_start := a,
      code_size := code.length }
  | none => .ok { c with
      mem := writeBytesAt c.mem 0xC000 code,
      reg := { c.reg with PC := 0xC000 },
      code_start := 0xC000,
      code_size := code.length }

/-- Embeds `Cpu::reset`. -/
def Cpu.reset (c : Cpu) : Cpu :=
  { c with reg := { c.reg with PC := c.code_start } }

/-- Embeds `opcodes.rs` `AddressingMode` (13 variants plus `Unknown`). -/
inductive AddressingMode where
  | unknown
  | implied
  | accumulator
  | immediate
  | relative
  | zeroPage
  | zeroPageX
  | zeroPageY
  | absolute
  | absoluteX
  | absoluteY
  | indirect
  | indirectX
  | indirectY
deriving DecidableEq

/-- Embeds `opcodes.rs` `OpCode` entry: mnemonic, raw byte, addressing mode, encoded
length and base cycle count. -/
structure OpCodeEntry where
  mnemonic : String
  code : Nat
  mode : AddressingMode
  length : Nat
  time : Nat
deriving DecidableEq

/-- Modelled from the spec: the static opcode table (`opcodes.rs`, declared by
`lib.rs` as `mod opcodes` but not present under src/).  The spec fixes each
entry's shape (§3: the table maps every defined raw byte to exactly one entry
with `length` matching the mode) and the test corpus fixes the concrete raw
bytes used below (e.g. `A9 00 A8 91 FF C8 CA D0 FA 60` for Clearmem, `AD 00 44`
for `LDA $4400`, `60` for RTS, `00` for BRK).  Only the entries the claims
exercise are listed; `from_raw_byte` of any other byte is `none`. -/
def opcodeTable : List OpCodeEntry :=
  [⟨"BRK", 0x00, .implied, 1, 7⟩,
   ⟨"PLP", 0x28, .implied, 1, 4⟩,
   ⟨"RTI", 0x40, .implied, 1, 6⟩,
   ⟨"RTS", 0x60, .implied, 1, 6⟩,
   ⟨"PLA", 0x68, .implied, 1, 4⟩,
   ⟨"ADC", 0x69, .immediate, 2, 2⟩,
   ⟨"TAY", 0xA8, .implied, 1, 2⟩,
   ⟨"LDA", 0xA9, .immediate, 2, 2⟩,
   ⟨"LDA", 0xAD, .absolute, 3, 4⟩,
   ⟨"STA", 0x91, .indirectY, 2, 6⟩,
   ⟨"INY", 0xC8, .implied, 1, 2⟩,
   ⟨"DEX", 0xCA, .implied, 1, 2⟩,
   ⟨"BNE", 0xD0, .relative, 2, 2⟩,
   ⟨"NOP", 0xEA, .implied, 1, 2⟩]

/-- Modelled from the spec: `OpCode::from_raw_byte` looks the entry up by raw
byte in the static table. -/
def fromRawByte (byte : Nat) : Option OpCodeEntry :=
  opcodeTable.find? (fun e => e.code == byte)

/-- An abort of `Cpu::step`: either the error value the source returns
(`CpuError::unknown_opcode`) or a Rust panic (an `unwrap` of an `Err`, a
16-bit read past the end of memory, an arithmetic overflow, or the
`unreachable!()` arm). -/
inductive StepError where
  | unknownOpcode (addr code : Nat)
  | panicked (msg : String)
deriving DecidableEq

/-- Embeds `Cpu::get_operand_from_opcode`.  `operand_start = PC + 1` is computed
before the mode dispatch, so it can overflow for every mode; `read_u16` panics
at address `0xFFFF`; the `u16` additions for AbsoluteX/AbsoluteY/IndirectY can
overflow; the `Unknown` mode hits `unreachable!()`. -/
def Cpu.getOperandFromOpcode (c : Cpu) (opcode : OpCodeEntry) : Except StepError Operand :=
  match u16add c.reg.PC 1 with
  | none => .error (.panicked "attempt to add with overflow")
  | some operandStart =>
    match opcode.mode with
    | .unknown => .error (.panicked "internal error: entered unreachable code")
    | .implied => .ok .implied
    | .immediate => .ok (.immediate (c.mem operandStart))
    | .relative => .ok (.immediate (c.mem operandStart))
    | .accumulator => .ok .implied
    | .zeroPage => .ok (.memory (c.mem operandStart &&& 0xFF))
    | .zeroPageX => .ok (.memory ((c.reg.X + c.mem operandStart) &&& 0xFF))
    | .zeroPageY => .ok (.memory ((c.reg.Y + c.mem operandStart) &&& 0xFF))
    | .absolute =>
      match readU16 c.mem operandStart with
      | some w => .ok (.memory w)
      | none => .error (.panicked "range end index out of range for slice")
    | .absoluteX =>
      match readU16 c.mem operandStart with
      | some w =>
        match u16add c.reg.X w with
        | some a => .ok (.memory a)
        | none => .error (.panicked "attempt to add with overflow")
      | none => .error (.panicked "range end index out of range for slice")
    | .absoluteY =>
      match readU16 c.mem operandStart with
      | some w =>
        match u16add c.reg.Y w with
        | some a => .ok (.memory a)
        | none => .error (.panicked "attempt to add with overflow")
      | none => .error (.panicked "range end index out of range for slice")
    | .indirect =>
      match readU16 c.mem operandStart with
      | some w =>
        match readU16 c.mem w with
        | some a => .ok (.memory a)
        | none => .error (.panicked "range end index out of range for slice")
      | none => .error (.panicked "range end index out of range for slice")
    | .indirectX =>
      match readU16 c.mem ((c.reg.X + c.mem operandStart) &&& 0xFF) with
      | some a => .ok (.memory a)
      | none => .error (.panicked "range end index out of range for slice")
    | .indirectY =>
      match readU16 c.mem (c.mem operandStart) with
      | some w =>
        match u16add c.reg.Y w with
        | some a => .ok (.memory a)
        | none => .error (.panicked "attempt to add with overflow")
      | none => .error (.panicked "range end index out of range for slice")

/-- Lift the `unwrap`-style handlers (RTI/RTS/PLA/PLP): `none` is a panic of
`Result::unwrap` on a `StackError`, not a returned error value. -/
def liftUnwrap (r : Option Cpu) : Except StepError Cpu :=
  match r with
  | some c => .ok c
  | none => .error (.panicked "called `Result::unwrap()` on an `Err` value")

/-- Embeds `Cpu::step`: fetch the byte at PC, look it up in the opcode table, decode
the operand, advance PC by the entry length, then dispatch on the mnemonic.
The dispatch arms below cover the mnemonics of every entry in the modelled
table; as in the source, an unlisted mnemonic falls to the
`unknown_opcode` arm.  Returns the new state and the base cycle count. -/
def Cpu.step (c : Cpu) : Except StepError (Cpu × Nat) := do
  let byte := c.mem c.reg.PC
  match fromRawByte byte with
  | none => .error (.unknownOpcode c.reg.PC byte)
  | some opcode =>
    let operand ← c.getOperandFromOpcode opcode
    match u16add c.reg.PC opcode.length with
    | none => .error (.panicked "attempt to add with overflow")
    | some pc' =>
      let c := { c with reg := { c.reg with PC := pc' } }
      let c' ← (match opcode.mnemonic with
        | "ADC" => .ok (c.adc operand)
        | "BRK" => .ok c.brk
        | "LDA" => .ok (c.lda operand)
        | "NOP" => .ok c
        | "PLA" => liftUnwrap c.pla
        | "PLP" => liftUnwrap c.plp
        | "RTI" => liftUnwrap c.rti
        | "RTS" => liftUnwrap c.rts
        | _ => .error (.unknownOpcode c.reg.PC opcode.code) : Except StepError Cpu)
      .ok (c', opcode.time)

/-- Modelled from the spec: the interrupt entry sequence shared by `nmi()` and
`irq()` (§4.5.3) — both methods are exercised by the test corpus
(`tests/cpu_integration.rs`) but no implementation exists under src/.  Push PC
(16-bit) then P, set the interrupt-disable flag, and load PC from the 16-bit
little-endian vector at `vec`/`vec+1`.  Pushes use the same discard-on-overflow
stack helpers as `Cpu::brk`. -/
def Cpu.interrupt (c : Cpu) (vec : Nat) : Cpu :=
  let c1 := c.pushU16Discard c.reg.PC
  let c2 := c1.pushDiscard c1.flags.toU8
  { c2 with
    flags := { c2.flags with interrupt_disabled := true },
    reg := { c2.reg with PC := c2.mem vec + 256 * c2.mem (vec + 1) } }

/-- Modelled from the spec: `nmi()` — takes effect regardless of the I flag;
vector at `0xFFFA/0xFFFB`. -/
def Cpu.nmi (c : Cpu) : Cpu :=
  c.interrupt 0xFFFA

/-- Modelled from the spec: `irq()` — ignored when the I flag is set; vector
at `0xFFFE/0xFFFF`. -/
def Cpu.irq (c : Cpu) : Cpu :=
  if c.flags.interrupt_disabled then c else c.interrupt 0xFFFE

/-! ## Assembler (`assembler/assembler.rs`) -/

/-- Embeds `assembler/token.rs` `ImmediateBase`. -/
inductive ImmediateBase where
  | base10
  | base16
deriving DecidableEq

/-- Embeds `assembler/token.rs` `LexerToken`. -/
inductive LexerToken where
  | ident (text : String)
  | address (hexDigits : String)
  | immediate (digits : String) (base : ImmediateBase)
  | assignment
  | openParenthesis
  | closeParenthesis
  | comma
  | period
  | colon
deriving DecidableEq

/-- Embeds `assembler/token.rs` `ParserToken`. -/
inductive ParserToken where
  | label (name : String)
  | labelArg (name : String)
  | opCode (entry : OpCodeEntry)
  | rawByte (b : Nat)
  | rawBytes (bs : List Nat)
  | orgDirective (addr : Nat)
deriving DecidableEq

/-- Embeds `assembler/assembler.rs` `CodeSegment`. -/
structure CodeSegment where
  address : Nat
  code : List Nat
deriving DecidableEq

/-- Embeds `assembler/assembler.rs` `AssemblerError` — a message string. -/
structure AssemblerError where
  message : String
deriving DecidableEq

/-- Embeds `AssemblerError::unknown_label`. -/
def AssemblerError.unknownLabel (label : String) : AssemblerError :=
  ⟨"Unknown label: " ++ label⟩

/-- Embeds `AssemblerError::relative_offset_too_large`. -/
def AssemblerError.relativeOffsetTooLarge (context : String) : AssemblerError :=
  ⟨"Branch too far: " ++ context⟩

/-- The assembler's symbol table `HashMap<String, Label>`: an association list
where an insert shadows any earlier binding of the same key. -/
def SymTable : Type := List (String × Nat)

/-- Embeds `HashMap::insert` (the newest binding wins on lookup). -/
def symInsert (t : SymTable) (key : String) (val : Nat) : SymTable :=
  (key, val) :: t

/-- Embeds `HashMap::get`. -/
def symLookup (t : SymTable) (key : String) : Option Nat :=
  match t with
  | [] => none
  | (k, v) :: rest => if k = key then some v else symLookup rest key

/-- Embeds `Assembler::index_labels` (pass 1): walk the tokens with a running
address, recording each `Label` at the current address; an `OpCode` advances
the address by its length (wrapping `u16` addition) and an `OrgDirective`
resets it.  The source also tracks `last_addressing_mode` here but never uses
it in this pass. -/
def indexLabels : List ParserToken → Nat → SymTable → SymTable
  | [], _, table => table
  | .label name :: rest, addr, table => indexLabels rest addr (symInsert table name addr)
  | .opCode e :: rest, addr, table => indexLabels rest ((addr + e.length) % 0x10000) table
  | .orgDirective a :: rest, _, table => indexLabels rest a table
  | _ :: rest, addr, table => indexLabels rest addr table

/-- Embeds the relative-branch arm of `Assembler::assemble`'s `LabelArg` case.
Backward branch (`addr > label_addr`): `(label_addr as i16 - addr as i16) as
i8` truncates to a signed byte *before* the `distance < -128 || distance >
127` range check, and the byte pushed is `distance as u8`.  Forward branch:
`label_addr - addr` as `u16`, rejected when above 127.  The `i16` subtraction
is modelled with exact integers (Rust's release-profile wrapping is congruent
to this modulo 2^16, and the `as i8` truncation only depends on the value
modulo 256). -/
def relativeBranchByte (labelAddr addr : Nat) (label : String) : Except AssemblerError Nat :=
  if addr > labelAddr then
    let distance := i8ofInt (i16ofU16 labelAddr - i16ofU16 addr)
    if distance < -128 ∨ distance > 127 then
      .error (AssemblerError.relativeOffsetTooLarge ("Attempted jump to " ++ label))
    else
      .ok (u8ofInt distance)
  else
    let distance := labelAddr - addr
    if distance > 127 then
      .error (AssemblerError.relativeOffsetTooLarge ("Attempted jump to " ++ label))
    else
      .ok distance

/-- The pass-2 loop state of `Assembler::assemble`: the running address, the
most recently seen addressing mode (initially `Absolute`), the segment being
filled and the finished segments. -/
structure AsmState where
  addr : Nat
  lastMode : AddressingMode
  current : CodeSegment
  out : List CodeSegment

/-- Embeds the token loop of `Assembler::assemble` (pass 2). -/
def assembleGo (table : SymTable) : List ParserToken → AsmState → Except AssemblerError (List CodeSegment)
  | [], st => .ok (st.out ++ [st.current])
  | .opCode e :: rest, st =>
    assembleGo table rest
      { st with current := { st.current with code := st.current.code ++ [e.code] },
                addr := (st.addr + e.length) % 0x10000,
                lastMode := e.mode }
  | .orgDirective a :: rest, st =>
    assembleGo table rest
      { addr := a,
        lastMode := st.lastMode,
        current := ⟨a, []⟩,
        out := if st.current.code.length > 0 then st.out ++ [st.current] else st.out }
  | .rawByte b :: rest, st =>
    assembleGo table rest
      { st with current := { st.current with code := st.current.code ++ [b] } }
  | .rawBytes bs :: rest, st =>
    assembleGo table rest
      { st with current := { st.current with code := st.current.code ++ bs } }
  | .labelArg name :: rest, st =>
    match symLookup table name with
    | none => .error (AssemblerError.unknownLabel name)
    | some labelAddr =>
      if st.lastMode = AddressingMode.absolute then
        assembleGo table rest
          { st with current := { st.current with
              code := st.current.code ++ [labelAddr &&& 0xFF, (labelAddr >>> 8) &&& 0xFF] } }
      else
        match relativeBranchByte labelAddr st.addr name with
        | .error e => .error e
        | .ok b =>
          assembleGo table rest
            { st with current := { st.current with code := st.current.code ++ [b] } }
  | .label _ :: rest, st => assembleGo table rest st

/-- Embeds `Assembler::assemble`: index the labels (pass 1), then emit the
segments (pass 2), starting from `offset` (default 0); the final segment is
always pushed, even when empty. -/
def assemble (tokens : List ParserToken) (offset : Option Nat) : Except AssemblerError (List CodeSegment) :=
  let addr := offset.getD 0
  assembleGo (indexLabels tokens addr []) tokens
    ⟨addr, AddressingMode.absolute, ⟨addr, []⟩, []⟩

/-! ## Parser constant table (`assembler/parser.rs`) -/

/-- Embeds `assembler/parser.rs` `ParserError` — a message with the line. -/
inductive ParserError where
  | unexpectedEol (line : Nat)
  | unknownIdentifier (line : Nat)
deriving DecidableEq

/-- The parser's private constant table `HashMap<String, Variable>`, a
`Variable` being a wrapped `LexerToken`. -/
def VarTable : Type := List (String × LexerToken)

/-- Embeds `HashMap::insert` for the constant table. -/
def varInsert (t : VarTable) (key : String) (val : LexerToken) : VarTable :=
  (key, val) :: t

/-- Embeds `HashMap::get` for the constant table. -/
def varLookup (t : VarTable) (key : String) : Option LexerToken :=
  match t with
  | [] => none
  | (k, v) :: rest => if k = key then some v else varLookup rest key

/-- Embeds the `Assignment` branch of `Parser::parse` (parser.rs lines
142-160), reached on a line `Ident name, Assignment, ...` where `name` is not
a mnemonic.  `rest` holds the tokens after the `Assignment` token.  An
`Address` or `Ident` value is recorded in the constant table; any other value
(an `Immediate` in particular) matches neither branch, so nothing is recorded
— and in every case no parser token is emitted and no error is raised. -/
def parseAssignment (line : Nat) (table : VarTable) (name : String)
    (rest : List LexerToken) : Except ParserError (List ParserToken × VarTable) :=
  match rest with
  | [] => .error (ParserError.unexpectedEol line)
  | v :: _ =>
    match v with
    | .address a => .ok ([], varInsert table name (.address a))
    | .ident i => .ok ([], varInsert table name (.ident i))
    | _ => .ok ([], table)

/-- Embeds `Parser::get_variable_value`: look the identifier up; if the stored
value is itself an `Ident`, resolve it recursively.  The Rust recursion has no
bound (it diverges on a cyclic chain); `fuel` bounds it here and exhaustion
cannot occur when `fuel` exceeds the chain length. -/
def getVariableValue (line : Nat) (table : VarTable) : Nat → String → Except ParserError LexerToken
  | 0, _ => .error (ParserError.unknownIdentifier line)
  | fuel + 1, ident =>
    match varLookup table ident with
    | none => .error (ParserError.unknownIdentifier line)
    | some (.ident next) => getVariableValue line table fuel next
    | some v => .ok v

/-! ## Concrete fixtures used by the theorems -/

/-- The parser token stream of the Clearmem program
(`CLRMEM LDA #$00 / TAY / CLRM1 STA ($FF),Y / INY / DEX / BNE CLRM1 / RTS`),
as the parser emits it: each instruction is an `OpCode` entry followed by its
operand bytes, a branch target is a `LabelArg`.  The entries are the table
rows for the raw bytes the test corpus expects
(`A9 00 A8 91 FF C8 CA D0 FA 60`). -/
def clearmemTokens : List ParserToken :=
  [.label "CLRMEM",
   .opCode ⟨"LDA", 0xA9, .immediate, 2, 2⟩, .rawByte 0x00,
   .opCode ⟨"TAY", 0xA8, .implied, 1, 2⟩,
   .label "CLRM1",
   .opCode ⟨"STA", 0x91, .indirectY, 2, 6⟩, .rawByte 0xFF,
   .opCode ⟨"INY", 0xC8, .implied, 1, 2⟩,
   .opCode ⟨"DEX", 0xCA, .implied, 1, 2⟩,
   .opCode ⟨"BNE", 0xD0, .relative, 2, 2⟩, .labelArg "CLRM1",
   .opCode ⟨"RTS", 0x60, .implied, 1, 6⟩]

/-- A token stream with a backward relative branch whose distance is −514,
far outside `[-128, +127]`: label `L` at address 0, then `.ORG $200` and
`BNE L` (so the address after the branch is `0x202`). -/
def farBranchTokens : List ParserToken :=
  [.label "L", .orgDirective 0x200,
   .opCode ⟨"BNE", 0xD0, .relative, 2, 2⟩, .labelArg "L"]

/-- A CPU about to execute BRK: PC = `0x1234`, empty stack, every flag clear
(in particular `breakpoint = false`). -/
def brkState : Cpu :=
  { mem := fun _ => 0
    reg := { A := 0, X := 0, Y := 0, PC := 0x1234 }
    flags := ⟨false, false, false, false, false, false, false, false⟩
    sp := 0xFF
    code_start := 0
    code_size := 0 }

/-- A CPU about to execute RTI with the byte `0xFF` on top of the stack. -/
def rtiState : Cpu :=
  { brkState with sp := 0xFE, mem := fun a => if a = 0x1FE then 0xFF else 0 }

/-- A CPU with an empty stack (`sp = 0xFF`) whose next instruction is RTS
(raw byte `0x60` at PC = 0). -/
def underflowState : Cpu :=
  { Cpu.new with
    mem := fun a => if a = 0 then 0x60 else 0
    reg := { A := 0, X := 0, Y := 0, PC := 0 } }

/-- A CPU about to execute `ADC #$01` semantics with A = `0x80` and every
flag clear: `-128 + 1 = -127`, no signed overflow. -/
def adcState : Cpu :=
  { Cpu.new with
    reg := { A := 0x80, X := 0, Y := 0, PC := 0 }
    flags := ⟨false, false, false, false, false, false, false, false⟩ }

/-- A CPU whose PC sits at `0xFFFE` on the defined opcode `0xAD`
(LDA Absolute): the operand word read starts at `0xFFFF`. -/
def topOfMemoryState : Cpu :=
  { Cpu.new with
    mem := fun a => if a = 0xFFFE then 0xAD else 0
    reg := { A := 0, X := 0, Y := 0, PC := 0xFFFE } }

/-- A CPU with interrupt vectors loaded: NMI vector `0x2000` at
`0xFFFA/0xFFFB`, PC = `0x1234`, empty stack. -/
def vectorState : Cpu :=
  { Cpu.new with
    mem := fun a => if a = 0xFFFA then 0x00 else if a = 0xFFFB then 0x20 else 0
    reg := { A := 0, X := 0, Y := 0, PC := 0x1234 } }

/-- A constant table holding the chain
`IND2 = IND1`, `IND1 = MAIN`, `MAIN = $0000`. -/
def chainTable : VarTable :=
  [("IND2", .ident "IND1"), ("IND1", .ident "MAIN"), ("MAIN", .address "0000")]

/-! ## Helper lemmas -/

/-- Success test for an `Except` result. -/
def isOkE {ε α : Type} (r : Except ε α) : Bool :=
  match r with
  | .ok _ => true
  | .error _ => false

instance exceptDecEq {ε α : Type} [DecidableEq ε] [DecidableEq α] :
    DecidableEq (Except ε α)
  | .ok a, .ok b =>
    match decEq a b with
    | isTrue h => isTrue (h ▸ rfl)
    | isFalse h => isFalse (fun hh => h (by cases hh; rfl))
  | .error a, .error b =>
    match decEq a b with
    | isTrue h => isTrue (h ▸ rfl)
    | isFalse h => isFalse (fun hh => h (by cases hh; rfl))
  | .ok _, .error _ => isFalse (fun hh => Except.noConfusion hh)
  | .error _, .ok _ => isFalse (fun hh => Except.noConfusion hh)

theorem writeByte_self (m : Mem) (addr val : Nat) : writeByte m addr val addr = val := by
  simp [writeByte]

theorem writeByte_other (m : Mem) (addr val a : Nat) (h : a ≠ addr) :
    writeByte m addr val a = m a := by
  simp [writeByte, h]

theorem ite_ne_true_or (s v o : Bool) :
    (if s ≠ v then true else o) = ((s != v) || o) := by
  cases s <;> cases v <;> cases o <;> decide

/-! ## Theorems for the claims -/

/-- C1: the claim states that BRK pushes the advanced PC then P with the B
flag forced set and sets I, and that RTI pops P (with B cleared, unused set)
then pops a 16-bit PC.  Evaluating the code at a concrete state shows the
divergence: BRK pushes PC (`0x34` then `0x12`) and P *without* forcing B (bit
4 of the pushed byte is 0), and RTI pops exactly one byte — PC stays `0x1234`
and the stack pointer rises by one only; popping the byte `0xFF` leaves
`breakpoint = true` (B not cleared) and `unused = false` (not set). -/
theorem c1_brk_rti_single_frame :
    brkState.brk.mem 0x1FD = 0x34
  ∧ brkState.brk.mem 0x1FE = 0x12
  ∧ brkState.brk.mem 0x1FC &&& 0x10 = 0
  ∧ brkState.brk.flags.interrupt_disabled = true
  ∧ brkState.brk.sp = 0xFC
  ∧ brkState.brk.rti.map (fun c => (c.reg.PC, c.sp)) = some (0x1234, 0xFD)
  ∧ rtiState.rti.map (fun c => (c.reg.PC, c.sp, c.flags.breakpoint, c.flags.unused))
      = some (0x1234, 0xFF, true, false) := by
  decide

/-- C2: the claim states that a backward relative branch whose signed
distance lies outside `[-128, +127]` fails with `relative_offset_too_large`.
On `farBranchTokens` the distance is `0 - 0x202 = -514 < -128`, yet assembly
*succeeds*, emitting the truncated byte `0xFE`: the source casts the distance
to `i8` before the range check, so the check can never fire. -/
theorem c2_backward_branch_check_dead :
    assemble farBranchTokens (some 0) = .ok [⟨0x200, [0xD0, 0xFE]⟩]
  ∧ ((0 : Int) - 0x202 < -128) := by
  decide

/-- C3: the claim states that a step executing RTS (or RTI/PLA/PLP) on an
empty stack surfaces the underflow as an error value.  The `Stack` layer does
produce the error value with its message, but the `Cpu` handlers call
`.unwrap()` on it, which aborts instead of returning: `step` on RTS with
`sp = 0xFF` ends in a panic, and each handler is `none`. -/
theorem c3_underflow_panics :
    underflowState.step = .error (.panicked "called `Result::unwrap()` on an `Err` value")
  ∧ stackPopU16 0xFF (fun _ => 0) = .error StackError.underflowed
  ∧ underflowState.rts = none
  ∧ underflowState.rti = none
  ∧ underflowState.pla = none
  ∧ underflowState.plp = none := by
  exact ⟨rfl, by decide, rfl, rfl, rfl, rfl⟩

/-- C4: the operand byte emitted for a relative branch is the two's-complement
encoding of `label_addr - A`, where `A` is the address after the branch (the
running address has already been advanced past the branch opcode and its
operand byte when the `LabelArg` is resolved); and assembling the Clearmem
token stream yields exactly `A9 00 A8 91 FF C8 CA D0 FA 60`, with branch byte
`0xFA` encoding −6. -/
theorem c4_relative_branch_encoding :
    (∀ labelAddr addr : Nat, labelAddr < 0x10000 → addr < 0x10000 →
      -128 ≤ (labelAddr : Int) - addr → (labelAddr : Int) - addr ≤ 127 →
      ∀ label, relativeBranchByte labelAddr addr label =
        .ok ((((labelAddr : Int) - addr) % 256).toNat))
  ∧ assemble clearmemTokens (some 0) =
      .ok [⟨0, [0xA9, 0x00, 0xA8, 0x91, 0xFF, 0xC8, 0xCA, 0xD0, 0xFA, 0x60]⟩] := by
  constructor
  · intro la ad hla had h1 h2 label
    simp only [relativeBranchByte, i8ofInt, i16ofU16, u8ofInt]
    split_ifs <;>
      first
        | (exfalso; omega)
        | (simp only [Except.ok.injEq]; omega)
  · decide

/-- Witness for C4: the Clearmem branch (`BNE CLRM1` with `CLRM1` at 3 and
the post-branch address 9) encodes as `0xFA = 250`. -/
theorem c4_witness :
    relativeBranchByte 3 9 "CLRM1" = .ok ((((3 : Int) - 9) % 256).toNat) :=
  c4_relative_branch_encoding.1 3 9 (by decide) (by decide) (by decide) (by decide) "CLRM1"

/-- Reduction of `Cpu.pushU16Discard` when the push succeeds. -/
theorem pushU16Discard_of_lt (c : Cpu) (val : Nat) (h : 1 < c.sp) :
    c.pushU16Discard val = { c with
      sp := c.sp - 2,
      mem := writeByte (writeByte c.mem (0x100 + (c.sp - 2)) (val % 256))
                       (0x100 + (c.sp - 1)) (val / 256 % 256) } := by
  simp only [Cpu.pushU16Discard, stackPushU16, if_pos h]

/-- Reduction of `Cpu.pushDiscard` when the push succeeds. -/
theorem pushDiscard_of_pos (c : Cpu) (val : Nat) (h : 0 < c.sp) :
    c.pushDiscard val = { c with
      sp := c.sp - 1,
      mem := writeByte c.mem (0x100 + (c.sp - 1)) val } := by
  simp only [Cpu.pushDiscard, stackPush, if_pos h]

/-- Shared shape of the modelled interrupt entry, for a vector away from the
stack page and a stack with room for three bytes. -/
theorem interrupt_spec (c : Cpu) (vec : Nat) (h3 : 3 ≤ c.sp) (hFF : c.sp ≤ 0xFF)
    (hvec : 0x200 ≤ vec) :
    (c.interrupt vec).reg.PC = c.mem vec + 256 * c.mem (vec + 1)
  ∧ (c.interrupt vec).flags.interrupt_disabled = true
  ∧ (c.interrupt vec).mem (0x100 + (c.sp - 1)) = c.reg.PC / 256 % 256
  ∧ (c.interrupt vec).mem (0x100 + (c.sp - 2)) = c.reg.PC % 256
  ∧ (c.interrupt vec).mem (0x100 + (c.sp - 3)) = c.flags.toU8
  ∧ (c.interrupt vec).sp = c.sp - 3
  ∧ (c.interrupt vec).reg.A = c.reg.A
  ∧ (c.interrupt vec).reg.X = c.reg.X
  ∧ (c.interrupt vec).reg.Y = c.reg.Y := by
  have h1 : 1 < c.sp := by omega
  simp only [Cpu.interrupt, pushU16Discard_of_lt c c.reg.PC h1]
  rw [pushDiscard_of_pos _ _ (show 0 < c.sp - 2 by omega)]
  refine ⟨?_, ?_, ?_, ?_, ?_, ?_, ?_, ?_, ?_⟩ <;>
    first
      | trivial
      | omega
      | (simp only [writeByte] <;> split_ifs <;> omega)

/-- C5: `nmi()` pushes the 16-bit PC then P, sets I, and loads PC from the
little-endian vector at `0xFFFA/0xFFFB` regardless of the I flag (no I
hypothesis appears below); `irq()` does the same with the vector at
`0xFFFE/0xFFFF` and leaves the state unchanged when I is set. -/
theorem c5_nmi_irq (c : Cpu) (h3 : 3 ≤ c.sp) (hFF : c.sp ≤ 0xFF) :
    c.nmi.reg.PC = c.mem 0xFFFA + 256 * c.mem 0xFFFB
  ∧ c.nmi.flags.interrupt_disabled = true
  ∧ c.nmi.mem (0x100 + (c.sp - 1)) = c.reg.PC / 256 % 256
  ∧ c.nmi.mem (0x100 + (c.sp - 2)) = c.reg.PC % 256
  ∧ c.nmi.mem (0x100 + (c.sp - 3)) = c.flags.toU8
  ∧ c.nmi.sp = c.sp - 3
  ∧ (c.flags.interrupt_disabled = true → c.irq = c)
  ∧ (c.flags.interrupt_disabled = false →
       c.irq.reg.PC = c.mem 0xFFFE + 256 * c.mem 0xFFFF
     ∧ c.irq.flags.interrupt_disabled = true
     ∧ c.irq.mem (0x100 + (c.sp - 1)) = c.reg.PC / 256 % 256
     ∧ c.irq.mem (0x100 + (c.sp - 2)) = c.reg.PC % 256
     ∧ c.irq.mem (0x100 + (c.sp - 3)) = c.flags.toU8
     ∧ c.irq.sp = c.sp - 3) := by
  have hn := interrupt_spec c 0xFFFA h3 hFF (by norm_num)
  have hi := interrupt_spec c 0xFFFE h3 hFF (by norm_num)
  refine ⟨?_, hn.2.1, hn.2.2.1, hn.2.2.2.1, hn.2.2.2.2.1, hn.2.2.2.2.2.1, ?_, ?_⟩
  · have h0 := hn.1
    norm_num at h0
    exact h0
  · intro h
    simp [Cpu.irq, h]
  · intro h
    have hirq : c.irq = c.interrupt 0xFFFE := by simp [Cpu.irq, h]
    rw [hirq]
    refine ⟨?_, hi.2.1, hi.2.2.1, hi.2.2.2.1, hi.2.2.2.2.1, hi.2.2.2.2.2.1⟩
    have h0 := hi.1
    norm_num at h0
    exact h0

/-- Witness for C5 at `vectorState` (NMI vector `0x2000`, full room on the
stack). -/
theorem c5_witness :
    (Cpu.nmi vectorState).reg.PC = vectorState.mem 0xFFFA + 256 * vectorState.mem 0xFFFB :=
  (c5_nmi_irq vectorState (by decide) (by decide)).1

theorem writeBytesAt_lower (code : List Nat) :
    ∀ (m : Mem) (a x : Nat), x < a → a + code.length ≤ 0x10000 →
      writeBytesAt m a code x = m x := by
  induction code with
  | nil =>
    intro m a x _ _
    rfl
  | cons b rest ih =>
    intro m a x hx hb
    simp only [writeBytesAt]
    rw [ih _ (a + 1) x (by omega) (by simp only [List.length_cons] at hb; omega)]
    have ha : a % 0x10000 = a := Nat.mod_eq_of_lt (by simp only [List.length_cons] at hb; omega)
    rw [writeByte_other _ _ _ _ (by omega)]

theorem writeBytesAt_getD (code : List Nat) :
    ∀ (m : Mem) (a i : Nat), i < code.length → a + code.length ≤ 0x10000 →
      writeBytesAt m a code (a + i) = code.getD i 0 := by
  induction code with
  | nil =>
    intro m a i hi _
    simp at hi
  | cons b rest ih =>
    intro m a i hi hb
    simp only [writeBytesAt]
    have ha : a % 0x10000 = a := Nat.mod_eq_of_lt (by simp only [List.length_cons] at hb; omega)
    cases i with
    | zero =>
      rw [writeBytesAt_lower rest _ (a + 1) (a + 0) (by omega)
            (by simp only [List.length_cons] at hb; omega)]
      simp [writeByte, ha]
    | succ j =>
      have hstep : a + (j + 1) = (a + 1) + j := by omega
      rw [hstep, ih _ (a + 1) j (by simp only [List.length_cons] at hi; omega)
            (by simp only [List.length_cons] at hb; omega)]
      simp

/-- C6 counterexample: the claim states that `load` leaves PC unchanged, but
loading one byte at `0x10` moves PC from 0 to `0x10`. -/
theorem c6_load_sets_pc :
    (Cpu.new.load [0xEA] (some 0x10)).map (fun s => s.reg.PC) = .ok 0x10
  ∧ Cpu.new.reg.PC = 0 := by
  decide

/-- C6 amended: `load` copies the bytes into memory, sets
`code_start`/`code_size`, leaves A, X, Y, the flags and the stack pointer
unchanged — and also sets PC to the load address itself; `reset()` re-points
PC at `code_start`. -/
theorem c6_load_amended (c : Cpu) (code : List Nat) (a : Nat)
    (hlen : a + code.length ≤ 0xFFFF) :
    (c.load code (some a)).map (fun s => s.reg.PC) = .ok a
  ∧ (c.load code (some a)).map (fun s => s.code_start) = .ok a
  ∧ (c.load code (some a)).map (fun s => s.code_size) = .ok code.length
  ∧ (∀ i, i < code.length →
      (c.load code (some a)).map (fun s => s.mem (a + i)) = .ok (code.getD i 0))
  ∧ (c.load code (some a)).map (fun s => (s.reg.A, s.reg.X, s.reg.Y, s.flags, s.sp))
      = .ok (c.reg.A, c.reg.X, c.reg.Y, c.flags, c.sp)
  ∧ (c.load code (some a)).map (fun s => s.reset.reg.PC) = .ok a := by
  have h : ¬ (a + code.length > 0xFFFF) := by omega
  simp only [Cpu.load, if_neg h, Except.map]
  refine ⟨trivial, trivial, trivial, ?_, trivial, rfl⟩
  intro i hi
  simp only [Except.ok.injEq]
  exact writeBytesAt_getD code c.mem a i hi (by omega)

/-- Witness for C6: loading two bytes at `0x20` sets PC to `0x20`. -/
theorem c6_witness :
    (Cpu.new.load [0x01, 0x02] (some 0x20)).map (fun s => s.reg.PC) = .ok 0x20 :=
  (c6_load_amended Cpu.new [0x01, 0x02] 0x20 (by decide)).1

/-- C7 counterexample: `ADC #$01` with A = `0x80` and V initially clear.
There is no signed overflow (the canonical formula
`(A ^ R) & (M ^ R) & 0x80` is 0), yet the code sets V. -/
theorem c7_overflow_not_canonical :
    (adcState.adc (.immediate 0x01)).flags.overflow = true
  ∧ (adcState.adc (.immediate 0x01)).reg.A = 0x81
  ∧ (0x80 ^^^ 0x81) &&& (0x01 ^^^ 0x81) &&& 0x80 = 0
  ∧ adcState.flags.overflow = false := by
  decide

/-- C7 amended: ADC sets V to true exactly when bit 7 of the (BCD-adjusted)
result differs from the conjunction of the input sign bits (A and the operand
both negative); it never clears V — the previous value is kept otherwise. -/
theorem c7_overflow_amended (c : Cpu) (op : Operand) :
    (c.adc op).flags.overflow =
      (((c.adcResult op &&& 0x80 == 0x80) !=
          (c.reg.A &&& 0x80 == 0x80 && c.unwrapImmediate op &&& 0x80 == 0x80))
        || c.flags.overflow) := by
  simp only [Cpu.adc]
  rw [ite_ne_true_or]

/-- C8 counterexample: the claim states that `NAME = value` with an
`Immediate` value records NAME in the constant table; the assignment branch
only handles `Address` and `Ident` values, so an `Immediate` assignment
records nothing (and a later lookup of NAME fails). -/
theorem c8_immediate_assignment_ignored :
    parseAssignment 1 [] "FOO" [.immediate "05" .base16] = .ok ([], [])
  ∧ getVariableValue 1 [] 5 "FOO" = .error (ParserError.unknownIdentifier 1) := by
  exact ⟨rfl, rfl⟩

/-- C8 amended: an assignment line whose value is an `Address` or another
identifier records NAME in the constant table and emits no parser token; an
`Immediate` (or any other) value is silently ignored — nothing is recorded
and no token is emitted; lookups resolve identifier chains transitively,
terminating in the stored `Address`. -/
theorem c8_assignment_amended :
    (∀ line (table : VarTable) name a rest,
        parseAssignment line table name (.address a :: rest) =
          .ok ([], (name, .address a) :: table))
  ∧ (∀ line (table : VarTable) name i rest,
        parseAssignment line table name (.ident i :: rest) =
          .ok ([], (name, .ident i) :: table))
  ∧ (∀ line (table : VarTable) name digits base rest,
        parseAssignment line table name (.immediate digits base :: rest) =
          .ok ([], table))
  ∧ (∀ line (table : VarTable) fuel name next,
        varLookup table name = some (.ident next) →
        getVariableValue line table (fuel + 1) name = getVariableValue line table fuel next)
  ∧ (∀ line (table : VarTable) fuel name a,
        varLookup table name = some (.address a) →
        getVariableValue line table (fuel + 1) name = .ok (.address a))
  ∧ getVariableValue 1 chainTable 4 "IND2" = .ok (.address "0000") := by
  refine ⟨fun _ _ _ _ _ => rfl, fun _ _ _ _ _ => rfl, fun _ _ _ _ _ _ => rfl, ?_, ?_, rfl⟩
  · intro line table fuel name next h
    simp [getVariableValue, h]
  · intro line table fuel name a h
    simp [getVariableValue, h]

/-- Witness for C8: one resolution step of the chain `IND2 = IND1`. -/
theorem c8_witness :
    getVariableValue 1 chainTable 3 "IND2" = getVariableValue 1 chainTable 2 "IND1" :=
  c8_assignment_amended.2.2.2.1 1 chainTable 2 "IND2" "IND1" (by decide)

/-- C9 counterexample: the claim states that a load exactly filling memory up
to `0xFFFF` succeeds (`addr + len > 0x10000` being the failure condition);
loading one byte at `0xFFFF` has `addr + len = 0x10000 ≤ 0x10000`, yet the
code rejects it. -/
theorem c9_exact_fill_rejected :
    Cpu.new.load [0x00] (some 0xFFFF) = .error (CpuError.codeSegmentOutOfRange 0xFFFF)
  ∧ 0xFFFF + ([0x00] : List Nat).length ≤ 0x10000 := by
  exact ⟨rfl, by decide⟩

/-- C9 amended: with an explicit address, `load` fails with
`code_segment_out_of_range` if and only if `addr + bytes.len() > 0xFFFF`
(equivalently `≥ 0x10000`) — the byte at address `0xFFFF` can never be
filled. -/
theorem c9_load_bound_amended (c : Cpu) (code : List Nat) (a : Nat) (ha : a < 0x10000) :
    (c.load code (some a) = .error (CpuError.codeSegmentOutOfRange a) ↔
       0xFFFF < a + code.length)
  ∧ (isOkE (c.load code (some a)) = true ↔ a + code.length ≤ 0xFFFF) := by
  simp only [Cpu.load]
  split_ifs with h <;> simp [isOkE] <;> omega

/-- Witness for C9: a one-byte load at `0xFFFE` succeeds. -/
theorem c9_witness :
    isOkE (Cpu.new.load [0x00] (some 0xFFFE)) = true ↔
      0xFFFE + ([0x00] : List Nat).length ≤ 0xFFFF :=
  (c9_load_bound_amended Cpu.new [0x00] 0xFFFE (by decide)).2

/-- C10 counterexample: the claim states that `step` on a defined opcode
never aborts.  With the defined opcode `0xAD` (LDA Absolute) at PC =
`0xFFFE`, the 16-bit operand read starts at `0xFFFF` and runs past the end
of memory: the step aborts with a slice panic. -/
theorem c10_step_panics_at_top :
    topOfMemoryState.step = .error (.panicked "range end index out of range for slice")
  ∧ fromRawByte 0xAD = some ⟨"LDA", 0xAD, .absolute, 3, 4⟩ := by
  exact ⟨rfl, by decide⟩

/-- C10 amended: the 16-bit memory read is defined at every address except
`0xFFFF`, and operand decoding is total for the modes that only read single
bytes (Implied, Accumulator, Immediate, Relative, the zero-page modes and
IndirectX) whenever PC is below `0xFFFF`; at the top of memory a 16-bit
operand read, an effective-address addition past `0xFFFF`, or the PC advance
can abort. -/
theorem c10_decoding_amended :
    (∀ (m : Mem) (a : Nat), a < 0x10000 → ((readU16 m a).isSome = true ↔ a < 0xFFFF))
  ∧ (∀ (c : Cpu) (e : OpCodeEntry), c.reg.PC < 0xFFFF →
      (e.mode = .implied ∨ e.mode = .accumulator ∨ e.mode = .immediate ∨
       e.mode = .relative ∨ e.mode = .zeroPage ∨ e.mode = .zeroPageX ∨
       e.mode = .zeroPageY ∨ e.mode = .indirectX) →
      isOkE (c.getOperandFromOpcode e) = true) := by
  constructor
  · intro m a ha
    simp only [readU16]
    split_ifs with h <;> simp <;> omega
  · intro c e hpc hmode
    have h1 : c.reg.PC + 1 ≤ 0xFFFF := by omega
    have hand : ((c.reg.X + c.mem (c.reg.PC + 1)) &&& 0xFF) + 1 ≤ 0xFFFF := by
      have := Nat.and_le_right (n := c.reg.X + c.mem (c.reg.PC + 1)) (m := 0xFF)
      omega
    simp only [Cpu.getOperandFromOpcode, u16add, if_pos h1]
    rcases hmode with h | h | h | h | h | h | h | h <;> rw [h] <;>
      first
        | rfl
        | (simp only [readU16, if_pos hand]; rfl)

/-- Witness for C10: decoding the Implied-mode entry for NOP at PC = 0
succeeds. -/
theorem c10_witness :
    isOkE (Cpu.new.getOperandFromOpcode ⟨"NOP", 0xEA, .implied, 1, 2⟩) = true :=
  c10_decoding_amended.2 Cpu.new ⟨"NOP", 0xEA, .implied, 1, 2⟩ (by decide) (Or.inl rfl)

end Rs6502
